import Mathlib

/-!
Shallow embedding of the backtesting core of the repository
(src/app/services/backtest.py, src/app/strategies/base.py,
src/app/strategies/momentum.py, src/app/strategies/mean_reversion.py),
with the claims C1..C10 settled against it.

Conventions of the embedding:
* Python floats are modelled as rationals.  Division by zero, which in
  pandas produces NaN or an infinity, is modelled explicitly where the
  source can reach it (the RSI quotient, via the type XVal below); in the
  remaining formulas the divisors are nonzero in every claim considered.
* pandas NaN cells are modelled as Option.none (rolling windows, the
  signal column read by the engine).
* The DataFrame integer row index stands in for the timestamp index.
* Values of the form mean/std * sqrt 252, which are irrational, are kept
  symbolically in the type AnnRatio: the constructor annualized m v
  denotes (m / Real.sqrt v) * Real.sqrt 252, and sentinelZero denotes the
  literal 0 returned by the guard branches of the source.
-/

namespace QTE

/-- Replace the last element of a list by applying f to it (Python
trades[-1].update(...) on a nonempty list; identity on the empty list,
which the engine never reaches because a position implies a trade). -/
def updateLast {α : Type} (l : List α) (f : α → α) : List α :=
  match l with
  | [] => []
  | [a] => [f a]
  | a :: rest => a :: updateLast rest f

/-- Overwrite the last element of a list (Python equity_curve[-1] = v). -/
def setLast {α : Type} (l : List α) (v : α) : List α :=
  match l with
  | [] => []
  | [_] => [v]
  | a :: rest => a :: setLast rest v

/-- Arithmetic mean of a list (np.mean / pandas mean on a nonempty list). -/
def listMean (xs : List ℚ) : ℚ := xs.sum / xs.length

/-- Sum of squared deviations from the mean. -/
def sumSqDev (xs : List ℚ) : ℚ :=
  (xs.map (fun x => (x - listMean xs) ^ 2)).sum

/-- Sample variance with ddof = 1 (the square of pandas Series.std). -/
def sampleVar (xs : List ℚ) : ℚ := sumSqDev xs / ((xs.length : ℚ) - 1)

/-- The guard returns.std() greater than 0 of the source: pandas std with
ddof = 1 is NaN for fewer than two samples (and NaN compares False), and
for two or more samples it is positive exactly when the sample variance
is positive. -/
def stdPos (xs : List ℚ) : Bool :=
  decide (2 ≤ xs.length) && decide (0 < sampleVar xs)

/-- pandas Series.pct_change().dropna(): simple returns of consecutive
pairs; the leading NaN is dropped by construction. -/
def pct_change (xs : List ℚ) : List ℚ :=
  List.zipWith (fun prev cur => cur / prev - 1) xs xs.tail

/-- Running maximum of a list (pandas Series.cummax). -/
def cummax (xs : List ℚ) : List ℚ :=
  match xs with
  | [] => []
  | x :: rest => x :: (cummax rest).map (fun m => max x m)

/-- Minimum of a list, none when empty (pandas Series.min is NaN on an
empty series). -/
def listMin (xs : List ℚ) : Option ℚ :=
  match xs with
  | [] => none
  | x :: rest =>
    match listMin rest with
    | none => some x
    | some m => some (min x m)

/-- Rolling mean with window w and the default min_periods = w of
pandas rolling(window=w).mean(): entry i is NaN (none) while the window
is unfilled, i.e. while i + 1 < w, and otherwise the mean of the last w
entries up to and including i. -/
def rollingMean (w : Nat) (xs : List ℚ) : List (Option ℚ) :=
  (List.range xs.length).map fun i =>
    if i + 1 < w then none
    else some ((((xs.take (i + 1)).drop (i + 1 - w)).sum) / (w : ℚ))

/-- Python int() applied to a rational: truncation toward zero. -/
def ratTrunc (q : ℚ) : ℤ := if 0 ≤ q then ⌊q⌋ else ⌈q⌉

/-- BaseStrategy.calculate_position_size (src/app/strategies/base.py):
risk_amount = capital * risk_per_trade; position_size =
int(risk_amount / price); return max(1, position_size). -/
def calculate_position_size (capital price risk_per_trade : ℚ) : ℤ :=
  max 1 (ratTrunc (capital * risk_per_trade / price))

/-- BaseStrategy.validate_data: every one of the five required column
names must be present. -/
def validate_data (columns : List String) : Bool :=
  ["open", "high", "low", "close", "volume"].all (fun c => columns.contains c)

/-- Status field of a trade record; the source uses the strings "open"
and "closed". -/
inductive TradeStatus where
  | opened : TradeStatus
  | closed : TradeStatus
deriving DecidableEq, Repr

/-- One entry of the trade ledger (the dictionaries accumulated in
self.trades by BacktestEngine.run).  Exit fields are absent (none) while
the trade is open; the commission field keeps the entry commission, as
in the source, where the close-time update does not touch it. -/
structure Trade where
  entry_time : Nat
  entry_price : ℚ
  quantity : ℤ
  commission : ℚ
  exit_time : Option Nat
  exit_price : Option ℚ
  pnl : Option ℚ
  pnl_percent : Option ℚ
  status : TradeStatus
deriving DecidableEq, Repr

/-- One row of the signalled DataFrame as read by the simulation loop:
only the close price and the signal cell are consulted.  The signal is
none when the cell is NaN (the pd.isna branch of the loop). -/
structure SigBar where
  close : ℚ
  signal : Option ℤ
deriving DecidableEq, Repr

/-- The mutable simulation state of BacktestEngine.run: the local
variables capital, position, entry_price and the instance accumulators
trades and equity_curve. -/
structure EngSt where
  capital : ℚ
  position : ℤ
  entry_price : ℚ
  trades : List Trade
  equity_curve : List ℚ
deriving DecidableEq, Repr

/-- Entry commission of the most recently opened trade
(Python self.trades[-1]["commission"]; 0 on an empty ledger, which the
sell branch never reaches because position is positive only after a
buy appended a trade). -/
def lastCommission (trades : List Trade) : ℚ :=
  match trades.getLast? with
  | none => 0
  | some t => t.commission

/-- One iteration of the simulation loop of BacktestEngine.run for the
bar with integer index i: the pd.isna skip, the buy branch, the sell
branch, and the equity recording at the bottom of the loop body. -/
def stepBar (commission slippage : ℚ) (i : Nat) (bar : SigBar) (st : EngSt) : EngSt :=
  match bar.signal with
  | none => { st with equity_curve := st.equity_curve ++ [st.capital] }
  | some sig =>
    let st' :=
      if sig = 1 ∧ st.position = 0 then
        let position_size := calculate_position_size st.capital bar.close (2 / 100)
        let entry_price := bar.close * (1 + slippage)
        let cost := (position_size : ℚ) * entry_price
        let commission_cost := cost * commission
        { st with
            capital := st.capital - (cost + commission_cost),
            position := position_size,
            entry_price := entry_price,
            trades := st.trades ++
              [{ entry_time := i, entry_price := entry_price,
                 quantity := position_size, commission := commission_cost,
                 exit_time := none, exit_price := none, pnl := none,
                 pnl_percent := none, status := TradeStatus.opened }] }
      else if sig = -1 ∧ 0 < st.position then
        let exit_price := bar.close * (1 - slippage)
        let proceeds := (st.position : ℚ) * exit_price
        let commission_cost := proceeds * commission
        let pnl := (exit_price - st.entry_price) * (st.position : ℚ) -
          (lastCommission st.trades + commission_cost)
        let pnl_percent := pnl / (st.entry_price * (st.position : ℚ)) * 100
        { st with
            capital := st.capital + (proceeds - commission_cost),
            position := 0,
            entry_price := 0,
            trades := updateLast st.trades (fun t =>
              { t with exit_time := some i, exit_price := some exit_price,
                       pnl := some pnl, pnl_percent := some pnl_percent,
                       status := TradeStatus.closed }) }
      else st
    if 0 < st'.position then
      { st' with equity_curve := st'.equity_curve ++
          [st'.capital + (bar.close - st'.entry_price) * (st'.position : ℚ)] }
    else
      { st' with equity_curve := st'.equity_curve ++ [st'.capital] }

/-- The for loop of BacktestEngine.run, carrying the running row index. -/
def simulate (commission slippage : ℚ) : Nat → EngSt → List SigBar → EngSt
  | _, st, [] => st
  | i, st, bar :: rest =>
    simulate commission slippage (i + 1) (stepBar commission slippage i bar st) rest

/-- The forced close after the loop of BacktestEngine.run: if a position
is still open and the series is nonempty, close it at the last close
with the same slippage and commission treatment as the sell branch, and
overwrite the last equity entry with the realized capital.  As in the
source the local position variable is not consulted afterwards, so it is
left untouched here as well; flatness is observed through the ledger. -/
def forceClose (commission slippage : ℚ) (bars : List SigBar) (st : EngSt) : EngSt :=
  if 0 < st.position ∧ bars ≠ [] then
    match bars.getLast? with
    | none => st
    | some lastBar =>
      let last_price := lastBar.close * (1 - slippage)
      let proceeds := (st.position : ℚ) * last_price
      let commission_cost := proceeds * commission
      let capital := st.capital + (proceeds - commission_cost)
      let pnl := (last_price - st.entry_price) * (st.position : ℚ) -
        (lastCommission st.trades + commission_cost)
      let pnl_percent := pnl / (st.entry_price * (st.position : ℚ)) * 100
      { st with
          capital := capital,
          trades := updateLast st.trades (fun t =>
            { t with exit_time := some (bars.length - 1),
                     exit_price := some last_price,
                     pnl := some pnl, pnl_percent := some pnl_percent,
                     status := TradeStatus.closed }),
          equity_curve := setLast st.equity_curve capital }
  else st

/-- Value of the Sharpe or Sortino computation.  The float expression
mean/std * sqrt 252 of the source is irrational in general, so it is
kept symbolically: annualized m v denotes (m / Real.sqrt v) *
Real.sqrt 252 where v is the sample variance used in the denominator,
and sentinelZero denotes the literal 0 of the guard's else branch. -/
inductive AnnRatio where
  | sentinelZero : AnnRatio
  | annualized (m v : ℚ) : AnnRatio
deriving DecidableEq, Repr

/-- The metrics dictionary returned by
BacktestEngine.calculate_metrics when the ledger has closed trades. -/
structure Metrics where
  total_trades : Nat
  profitable_trades : Nat
  losing_trades : Nat
  win_rate : ℚ
  avg_profit : ℚ
  avg_loss : ℚ
  profit_factor : ℚ
  sharpe_ratio : AnnRatio
  sortino_ratio : AnnRatio
  max_drawdown : Option ℚ
deriving DecidableEq, Repr

/-- Python t.get("pnl", 0). -/
def pnlOr0 (t : Trade) : ℚ := t.pnl.getD 0

/-- The closed-trade filter of calculate_metrics. -/
def closedOf (trades : List Trade) : List Trade :=
  trades.filter (fun t => t.status = TradeStatus.closed)

/-- The list of positive pnls of the closed trades. -/
def profitsOf (trades : List Trade) : List ℚ :=
  ((closedOf trades).filter (fun t => 0 < pnlOr0 t)).map pnlOr0

/-- The list of absolute values of the negative pnls of the closed
trades. -/
def lossesOf (trades : List Trade) : List ℚ :=
  ((closedOf trades).filter (fun t => pnlOr0 t < 0)).map (fun t => |pnlOr0 t|)

/-- Drawdown series (equity - cummax) / cummax of the source. -/
def drawdownList (equity : List ℚ) : List ℚ :=
  List.zipWith (fun e m => (e - m) / m) equity (cummax equity)

/-- BacktestEngine.calculate_metrics.  The empty dictionary returned
when the ledger has no (closed) trades is modelled as none.  The
downside-length guard together with std greater than 0 of the source is
reproduced through stdPos, see its docstring. -/
def calculate_metrics (trades : List Trade) (equity : List ℚ) : Option Metrics :=
  if trades = [] then none
  else
    let closed_trades := closedOf trades
    if closed_trades = [] then none
    else
      let total_trades := closed_trades.length
      let profitable_trades := (closed_trades.filter (fun t => 0 < pnlOr0 t)).length
      let losing_trades := (closed_trades.filter (fun t => pnlOr0 t < 0)).length
      let win_rate := if 0 < total_trades
        then ((profitable_trades : ℚ) / (total_trades : ℚ)) * 100 else 0
      let profits := profitsOf trades
      let losses := lossesOf trades
      let avg_profit := if profits = [] then 0 else listMean profits
      let avg_loss := if losses = [] then 0 else listMean losses
      let profit_factor :=
        if losses ≠ [] ∧ 0 < losses.sum then profits.sum / losses.sum else 0
      let returns := pct_change equity
      let sharpe :=
        if stdPos returns then AnnRatio.annualized (listMean returns) (sampleVar returns)
        else AnnRatio.sentinelZero
      let downside_returns := returns.filter (fun r => r < 0)
      let sortino :=
        if 0 < downside_returns.length ∧ stdPos downside_returns then
          AnnRatio.annualized (listMean returns) (sampleVar downside_returns)
        else AnnRatio.sentinelZero
      some
        { total_trades := total_trades,
          profitable_trades := profitable_trades,
          losing_trades := losing_trades,
          win_rate := win_rate,
          avg_profit := avg_profit,
          avg_loss := avg_loss,
          profit_factor := profit_factor,
          sharpe_ratio := sharpe,
          sortino_ratio := sortino,
          max_drawdown := (listMin (drawdownList equity)).map (fun d => d * 100) }

/-- The dictionary returned by BacktestEngine.run. -/
structure RunResult where
  initial_capital : ℚ
  final_capital : ℚ
  total_return : ℚ
  trades : List Trade
  equity_curve : List ℚ
  metrics : Option Metrics
deriving DecidableEq, Repr

/-- The loop state reached by BacktestEngine.run just before the forced
close, starting from the reset state of lines 63 to 67 of the source. -/
def loopState (initial_capital commission slippage : ℚ) (bars : List SigBar) : EngSt :=
  simulate commission slippage 0
    { capital := initial_capital, position := 0, entry_price := 0,
      trades := [], equity_curve := [] } bars

/-- The final engine state of BacktestEngine.run, after the forced
close. -/
def finalState (initial_capital commission slippage : ℚ) (bars : List SigBar) : EngSt :=
  forceClose commission slippage bars (loopState initial_capital commission slippage bars)

/-- The simulation and result assembly of BacktestEngine.run over an
already signalled bar series. -/
def runEngine (initial_capital commission slippage : ℚ) (bars : List SigBar) : RunResult :=
  let st := finalState initial_capital commission slippage bars
  { initial_capital := initial_capital,
    final_capital := st.capital,
    total_return := (st.capital - initial_capital) / initial_capital * 100,
    trades := st.trades,
    equity_curve := st.equity_curve,
    metrics := calculate_metrics st.trades st.equity_curve }

/-- The BacktestEngine instance: configuration plus the instance-level
accumulators self.trades and self.equity_curve that survive between
calls to run. -/
structure BacktestEngine where
  initial_capital : ℚ
  commission : ℚ
  slippage : ℚ
  trades : List Trade
  equity_curve : List ℚ
deriving DecidableEq, Repr

/-- BacktestEngine.run as a method: lines 66 to 67 reset the instance
accumulators before simulating, so the stale trades and equity_curve
fields of the instance are discarded; the returned instance carries the
accumulators of this run. -/
def BacktestEngine.run (e : BacktestEngine) (bars : List SigBar) :
    RunResult × BacktestEngine :=
  let r := runEngine e.initial_capital e.commission e.slippage bars
  (r, { e with trades := r.trades, equity_curve := r.equity_curve })

/-- Moving-average kind of the momentum strategy (the ma_type strings
"sma" and "ema"; an unknown string raises a configuration error in the
source before any signal work and is outside the claims considered). -/
inductive MAType where
  | sma : MAType
  | ema : MAType
deriving DecidableEq, Repr

/-- pandas ewm(span, adjust=False).mean(): recursive exponential mean
with alpha = 2 / (span + 1), defined from the first element on. -/
def ewmMean (span : Nat) (xs : List ℚ) : List ℚ :=
  let alpha : ℚ := 2 / ((span : ℚ) + 1)
  match xs with
  | [] => []
  | x :: rest =>
    (rest.foldl (fun acc y =>
      acc ++ [alpha * y + (1 - alpha) * (acc.getLastD x)]) [x])

/-- Moving averages of MomentumStrategy.generate_signals: rolling means
for sma (NaN while the window is unfilled), exponential means for ema
(defined everywhere). -/
def movingAverage (mt : MAType) (period : Nat) (closes : List ℚ) : List (Option ℚ) :=
  match mt with
  | MAType.sma => rollingMean period closes
  | MAType.ema => (ewmMean period closes).map some

/-- Signal cell of the momentum strategy at one bar: the source sets
signal to 0, then overwrites with 1 where fast_ma is greater than
slow_ma and with -1 where fast_ma is less than slow_ma; a comparison
with a NaN average is False, leaving the initial 0. -/
def momentumSignalCell (fast slow : Option ℚ) : ℤ :=
  match fast, slow with
  | some f, some s => if f > s then 1 else if f < s then -1 else 0
  | _, _ => 0

/-- Signal column of MomentumStrategy.generate_signals over the close
column. -/
def momentum_signals (mt : MAType) (fast_period slow_period : Nat)
    (closes : List ℚ) : List ℤ :=
  List.zipWith momentumSignalCell
    (movingAverage mt fast_period closes) (movingAverage mt slow_period closes)

/-- Extended float value for the RSI computation, where the source can
produce an infinity or NaN through division: fin q is an ordinary
(finite) float, pinf is a positive infinity, nan is NaN. -/
inductive XVal where
  | nan : XVal
  | pinf : XVal
  | fin (q : ℚ) : XVal
deriving DecidableEq, Repr

/-- Consecutive differences of a price series, pandas Series.diff with
the leading NaN dropped. -/
def diffsOf (prices : List ℚ) : List ℚ :=
  List.zipWith (fun prev cur => cur - prev) prices prices.tail

/-- The gain series of calculate_rsi: delta.where(delta greater than 0,
0).  The leading NaN of diff fails the comparison and becomes 0, so the
series has no NaN and the same length as the prices. -/
def gainsOf (prices : List ℚ) : List ℚ :=
  0 :: (diffsOf prices).map (fun d => if 0 < d then d else 0)

/-- The loss series of calculate_rsi: (-delta.where(delta less than 0,
0)), nonnegative magnitudes of the negative moves. -/
def lossesSeriesOf (prices : List ℚ) : List ℚ :=
  0 :: (diffsOf prices).map (fun d => if d < 0 then -d else 0)

/-- One RSI cell from the rolling average gain and loss, with the float
semantics of rs = gain / loss and rsi = 100 - 100 / (1 + rs): a NaN
window average propagates to NaN; avg loss 0 with avg gain 0 gives rs =
NaN hence rsi = NaN; avg loss 0 with avg gain positive gives rs = +inf
hence rsi = 100 - 0 = 100; otherwise the finite formula.  The window
averages are nonnegative by construction of the gain and loss series. -/
def rsiCell (gain loss : Option ℚ) : XVal :=
  match gain, loss with
  | some g, some l =>
    if l = 0 then (if g = 0 then XVal.nan else XVal.fin 100)
    else XVal.fin (100 - 100 / (1 + g / l))
  | _, _ => XVal.nan

/-- MeanReversionStrategy.calculate_rsi over a price series. -/
def calculate_rsi (prices : List ℚ) (period : Nat) : List XVal :=
  List.zipWith rsiCell
    (rollingMean period (gainsOf prices)) (rollingMean period (lossesSeriesOf prices))

/-- Input frame of a strategy as far as the claims consult it: the
column-name list checked by validate_data and the close column used by
the momentum signal computation; one row per close entry. -/
structure MarketData where
  columns : List String
  closes : List ℚ
deriving DecidableEq, Repr

/-- The five required column names. -/
def allCols : List String := ["open", "high", "low", "close", "volume"]

/-- MomentumStrategy.generate_signals including its validation: raises
ValueError "Invalid data format" when a required column is missing,
otherwise returns the signal column. -/
def MomentumStrategy.generate_signals (mt : MAType) (fast_period slow_period : Nat)
    (d : MarketData) : Except String (List ℤ) :=
  if validate_data d.columns then
    Except.ok (momentum_signals mt fast_period slow_period d.closes)
  else Except.error "Invalid data format"

/-- BacktestEngine.run specialised to the momentum strategy: generate
the signals (which validates the frame first) and simulate.  Every
signal cell of the generated column is a number, never NaN, so each bar
carries some signal. -/
def run_momentum (initial_capital commission slippage : ℚ) (mt : MAType)
    (fast_period slow_period : Nat) (d : MarketData) : Except String RunResult :=
  (MomentumStrategy.generate_signals mt fast_period slow_period d).map
    (fun sigs =>
      runEngine initial_capital commission slippage
        (List.zipWith (fun c s => { close := c, signal := some s }) d.closes sigs))

lemma max_one_ratTrunc (x : ℚ) : max 1 (ratTrunc x) = max 1 ⌊x⌋ := by
  unfold ratTrunc
  by_cases h : 0 ≤ x
  · simp [h]
  · push_neg at h
    have hc : ⌈x⌉ ≤ 0 := Int.ceil_le.mpr (by exact_mod_cast h.le)
    have hf : ⌊x⌋ ≤ 0 := le_trans (Int.floor_le_ceil x) hc
    rw [if_neg (not_le.mpr h), max_eq_left (hc.trans one_pos.le),
      max_eq_left (hf.trans one_pos.le)]

/-- C2: with commission_rate 1/100 and slippage 0, entering at close 100
with quantity 1 debits capital by exactly 101 (visible as the loop
capital after the entry bar), exiting at close 110 credits capital by
exactly 110 - 11/10 = 108.9, and the closed trade's pnl is exactly
(110 - 100) * 1 - (1 + 11/10) = 7.9. -/
theorem C2_scenarioB_costs :
    (loopState 1000 (1 / 100) 0 [{ close := 100, signal := some 1 }]).capital
      = 1000 - 101 ∧
    (runEngine 1000 (1 / 100) 0
      [{ close := 100, signal := some 1 }, { close := 110, signal := some (-1) }]).final_capital
      = (1000 - 101) + (110 - 11 / 10) ∧
    (runEngine 1000 (1 / 100) 0
      [{ close := 100, signal := some 1 }, { close := 110, signal := some (-1) }]).trades.map
        Trade.pnl
      = [some ((110 - 100) * 1 - (1 + 11 / 10))] := by
  refine ⟨?_, ?_, ?_⟩ <;>
    · simp [runEngine, finalState, forceClose, loopState, simulate, stepBar,
        calculate_position_size, ratTrunc, lastCommission, updateLast]
      norm_num

/-- C7: the result of BacktestEngine.run does not depend on the stale
instance accumulators trades and equity_curve (they are reset at the
start of each run), so two runs with the same configuration and bar
series give identical results, and a second run on the very instance
returned by the first yields the first result again. -/
theorem C7_run_deterministic :
    ∀ (init c s : ℚ) (t1 e1 t2 e2 : _) (bars : List SigBar),
      (BacktestEngine.run
        { initial_capital := init, commission := c, slippage := s,
          trades := t1, equity_curve := e1 } bars).1
        = (BacktestEngine.run
            { initial_capital := init, commission := c, slippage := s,
              trades := t2, equity_curve := e2 } bars).1 ∧
      (BacktestEngine.run
        ((BacktestEngine.run
          { initial_capital := init, commission := c, slippage := s,
            trades := t1, equity_curve := e1 } bars).2) bars).1
        = (BacktestEngine.run
            { initial_capital := init, commission := c, slippage := s,
              trades := t1, equity_curve := e1 } bars).1 := by
  intro init c s t1 e1 t2 e2 bars
  exact ⟨rfl, rfl⟩

/-- C10: the position sizer returns max(1, floor(capital * 2% / price)),
hence at least one unit regardless of capital; and the engine debits the
full entry cost without an affordability check, so an entry from capital
10 at price 100 leaves the capital at -90, violating capital
nonnegativity. -/
theorem C10_position_size_no_affordability :
    (∀ capital price : ℚ, 0 < price →
        calculate_position_size capital price (2 / 100)
          = max 1 ⌊capital * (2 / 100) / price⌋) ∧
    (stepBar 0 0 0 { close := 100, signal := some 1 }
        { capital := 10, position := 0, entry_price := 0,
          trades := [], equity_curve := [] }).capital < 0 := by
  constructor
  · intro capital price _
    exact max_one_ratTrunc _
  · simp [stepBar, calculate_position_size, ratTrunc]
    norm_num

/-- Witness for C10 at capital 50, price 100. -/
theorem C10_position_size_no_affordability_witness :
    calculate_position_size 50 100 (2 / 100) = max 1 ⌊(50 : ℚ) * (2 / 100) / 100⌋ :=
  C10_position_size_no_affordability.1 50 100 (by norm_num)

lemma rollingMean_getElem? (w : Nat) (xs : List ℚ) (i : Nat) (hi : i < xs.length) :
    (rollingMean w xs)[i]? = some (if i + 1 < w then none
      else some ((((xs.take (i + 1)).drop (i + 1 - w)).sum) / (w : ℚ))) := by
  unfold rollingMean
  rw [List.getElem?_map, List.getElem?_range hi]
  rfl

lemma momentumSignalCell_none_left (y : Option ℚ) : momentumSignalCell none y = 0 := by
  cases y <;> rfl

lemma momentumSignalCell_none_right (x : Option ℚ) : momentumSignalCell x none = 0 := by
  cases x <;> rfl

/-- Counterexample to C4: on the close series [1, 2, 3] with fast period
2 and slow period 3, the momentum signal at the first bar (both windows
unfilled) is the Hold value 0 of the ℤ-valued signal column, not an
undefined marker distinct from it. -/
theorem C4_counterexample_unfilled_is_hold :
    (momentum_signals MAType.sma 2 3 [1, 2, 3])[0]? = some 0 := by
  simp [momentum_signals, movingAverage, rollingMean, List.range_succ,
    momentumSignalCell]

/-- C4 amended: a bar whose moving-average lookback window is unfilled
carries the Hold signal 0 (the NaN comparisons of the source are False,
leaving the initialized 0), not a distinct undefined marker; the engine
does pass a NaN signal cell through without any state change, appending
only the current capital to the equity curve. -/
theorem C4_amended_unfilled_hold_and_nan_skip :
    (∀ (closes : List ℚ) (fast slow i : Nat), i < closes.length →
        (i + 1 < fast ∨ i + 1 < slow) →
        (momentum_signals MAType.sma fast slow closes)[i]? = some 0) ∧
    (∀ (c s : ℚ) (i : Nat) (bar : SigBar) (st : EngSt), bar.signal = none →
        stepBar c s i bar st
          = { st with equity_curve := st.equity_curve ++ [st.capital] }) := by
  constructor
  · intro closes fast slow i hi hw
    rw [momentum_signals, movingAverage, movingAverage, List.getElem?_zipWith',
      rollingMean_getElem? fast closes i hi, rollingMean_getElem? slow closes i hi]
    rcases hw with h | h
    · simp [if_pos h, momentumSignalCell_none_left]
    · simp [if_pos h, momentumSignalCell_none_right]
  · intro c s i bar st h
    cases bar
    simp only at h
    subst h
    rfl

/-- Witness for C4 amended at the second bar of [1, 2, 3] and at a
concrete NaN-signalled bar. -/
theorem C4_amended_unfilled_hold_and_nan_skip_witness :
    (momentum_signals MAType.sma 2 3 [1, 2, 3])[1]? = some 0 ∧
    stepBar 0 0 0 { close := 5, signal := none }
        { capital := 7, position := 0, entry_price := 0, trades := [], equity_curve := [] }
      = { capital := 7, position := 0, entry_price := 0, trades := [], equity_curve := [7] } :=
  ⟨C4_amended_unfilled_hold_and_nan_skip.1 [1, 2, 3] 2 3 1 (by decide) (Or.inr (by decide)),
   C4_amended_unfilled_hold_and_nan_skip.2 0 0 0 { close := 5, signal := none } _ rfl⟩

/-- Counterexample to C5: on the constant price series [1, 1] with
period 1, the rolling average loss at the second bar is 0 but the RSI
there is NaN (0/0 propagates), not 100. -/
theorem C5_counterexample_flat_rsi_nan :
    (rollingMean 1 (lossesSeriesOf [1, 1]))[1]? = some (some 0) ∧
    (calculate_rsi [1, 1] 1)[1]? = some XVal.nan ∧
    XVal.nan ≠ XVal.fin 100 := by
  refine ⟨?_, ?_, by simp⟩
  · simp [rollingMean, lossesSeriesOf, diffsOf, List.range_succ]
  · simp [calculate_rsi, rollingMean, lossesSeriesOf, gainsOf, diffsOf,
      List.range_succ, rsiCell]

/-- C5 amended: the RSI computation is total (a zero average loss never
raises), and at any bar where both window averages are defined it
evaluates as follows: positive average loss gives the finite RSI
formula, zero average loss with positive average gain gives exactly 100,
and zero average loss with zero average gain gives NaN rather than
100. -/
theorem C5_amended_rsi_zero_loss :
    ∀ (prices : List ℚ) (period i : Nat) (g l : ℚ),
      (rollingMean period (gainsOf prices))[i]? = some (some g) →
      (rollingMean period (lossesSeriesOf prices))[i]? = some (some l) →
      (l ≠ 0 → (calculate_rsi prices period)[i]?
          = some (XVal.fin (100 - 100 / (1 + g / l)))) ∧
      (l = 0 → g ≠ 0 → (calculate_rsi prices period)[i]? = some (XVal.fin 100)) ∧
      (l = 0 → g = 0 → (calculate_rsi prices period)[i]? = some XVal.nan) := by
  intro prices period i g l hg hl
  have hz : (calculate_rsi prices period)[i]? = some (rsiCell (some g) (some l)) := by
    rw [calculate_rsi, List.getElem?_zipWith', hg, hl]
    rfl
  refine ⟨?_, ?_, ?_⟩
  · intro hne
    rw [hz]
    simp [rsiCell, hne]
  · intro h0 hgne
    rw [hz]
    simp [rsiCell, h0, hgne]
  · intro h0 hg0
    rw [hz]
    simp [rsiCell, h0, hg0]

/-- Witness for C5 amended on the series [1, 2, 1] with period 1: the
average gain at the second bar is 1, the average loss is 0, and the RSI
is exactly 100. -/
theorem C5_amended_rsi_zero_loss_witness :
    (calculate_rsi [1, 2, 1] 1)[1]? = some (XVal.fin 100) :=
  (C5_amended_rsi_zero_loss [1, 2, 1] 1 1 1 0
    (by simp [rollingMean, gainsOf, diffsOf, List.range_succ]; norm_num)
    (by simp [rollingMean, lossesSeriesOf, diffsOf, List.range_succ])).2.1
    rfl one_ne_zero

lemma momentum_signals_nil (mt : MAType) (fp sp : Nat) :
    momentum_signals mt fp sp [] = [] := by
  cases mt <;> simp [momentum_signals, movingAverage, rollingMean, ewmMean]

lemma runEngine_nil (init c s : ℚ) :
    runEngine init c s []
      = { initial_capital := init, final_capital := init, total_return := 0,
          trades := [], equity_curve := [], metrics := none } := by
  simp [runEngine, finalState, loopState, simulate, forceClose, calculate_metrics]

/-- Counterexample to C3: a run over the empty bar series with all five
required columns present does not raise; it returns a normal result with
the initial capital intact, no trades, an empty equity curve and no
metrics. -/
theorem C3_counterexample_empty_series_ok :
    run_momentum 1000 0 0 MAType.sma 2 3 { columns := allCols, closes := [] }
      = Except.ok
          { initial_capital := 1000, final_capital := 1000, total_return := 0,
            trades := [], equity_curve := [], metrics := none } := by
  rw [run_momentum, MomentumStrategy.generate_signals]
  simp only [show validate_data allCols = true from rfl, if_true]
  simp [momentum_signals_nil, Except.map, runEngine_nil]

/-- C3 amended: a series missing one of the five required columns makes
run fail with the ValueError "Invalid data format" before any
simulation; but an empty series that does carry the five columns does
not raise inside run, which instead returns a result with empty trade
ledger, empty equity curve and absent metrics (emptiness is rejected
only by the API caller before run is invoked). -/
theorem C3_amended_validation :
    (∀ (init c s : ℚ) (mt : MAType) (fp sp : Nat) (d : MarketData),
        validate_data d.columns = false →
        run_momentum init c s mt fp sp d = Except.error "Invalid data format") ∧
    (∀ (init c s : ℚ) (mt : MAType) (fp sp : Nat) (cols : List String),
        validate_data cols = true →
        run_momentum init c s mt fp sp { columns := cols, closes := [] }
          = Except.ok
              { initial_capital := init, final_capital := init, total_return := 0,
                trades := [], equity_curve := [], metrics := none }) := by
  constructor
  · intro init c s mt fp sp d h
    simp [run_momentum, MomentumStrategy.generate_signals, h, Except.map]
  · intro init c s mt fp sp cols h
    rw [run_momentum, MomentumStrategy.generate_signals]
    simp only [h, if_true]
    simp [momentum_signals_nil, Except.map, runEngine_nil]

/-- Witness for C3 amended: a frame with no columns errors, a frame with
the five columns and no rows runs through. -/
theorem C3_amended_validation_witness :
    run_momentum 5 0 0 MAType.sma 2 3 { columns := [], closes := [] }
        = Except.error "Invalid data format" ∧
    run_momentum 5 0 0 MAType.ema 2 3 { columns := allCols, closes := [] }
        = Except.ok
            { initial_capital := 5, final_capital := 5, total_return := 0,
              trades := [], equity_curve := [], metrics := none } :=
  ⟨C3_amended_validation.1 5 0 0 MAType.sma 2 3 { columns := [], closes := [] } rfl,
   C3_amended_validation.2 5 0 0 MAType.ema 2 3 allCols rfl⟩

/-- C6: a run whose trade ledger ends empty yields the absent metrics
value none, which is distinct from every concrete metrics record,
including an all-zero one. -/
theorem C6_empty_ledger_no_metrics :
    ∀ (init c s : ℚ) (bars : List SigBar),
      (runEngine init c s bars).trades = [] →
      (runEngine init c s bars).metrics = none ∧
      ∀ m : Metrics, (runEngine init c s bars).metrics ≠ some m := by
  intro init c s bars h
  have ht : (finalState init c s bars).trades = [] := h
  have hm : (runEngine init c s bars).metrics
      = calculate_metrics (finalState init c s bars).trades
          (finalState init c s bars).equity_curve := rfl
  rw [hm, ht]
  simp [calculate_metrics]

/-- Witness for C6: a one-bar series whose only signal is Hold opens no
trade and yields no metrics. -/
theorem C6_empty_ledger_no_metrics_witness :
    (runEngine 100 0 0 [{ close := 5, signal := some 0 }]).metrics = none :=
  (C6_empty_ledger_no_metrics 100 0 0 [{ close := 5, signal := some 0 }] (by decide)).1

lemma lossesOf_pos (trades : List Trade) : ∀ x ∈ lossesOf trades, 0 < x := by
  intro x hx
  rw [lossesOf] at hx
  obtain ⟨t, ht, rfl⟩ := List.mem_map.mp hx
  have hneg : pnlOr0 t < 0 := by
    have := List.of_mem_filter ht
    simpa using this
  exact abs_pos.mpr hneg.ne

lemma profitsOf_nonneg (trades : List Trade) : ∀ x ∈ profitsOf trades, 0 ≤ x := by
  intro x hx
  rw [profitsOf] at hx
  obtain ⟨t, ht, rfl⟩ := List.mem_map.mp hx
  have hpos : 0 < pnlOr0 t := by
    have := List.of_mem_filter ht
    simpa using this
  exact hpos.le

lemma metrics_profit_factor {trades : List Trade} {equity : List ℚ} {m : Metrics}
    (h : calculate_metrics trades equity = some m) :
    m.profit_factor = if lossesOf trades ≠ [] ∧ 0 < (lossesOf trades).sum
      then (profitsOf trades).sum / (lossesOf trades).sum else 0 := by
  simp only [calculate_metrics] at h
  by_cases h1 : trades = []
  · rw [if_pos h1] at h
    cases h
  rw [if_neg h1] at h
  by_cases h2 : closedOf trades = []
  · rw [if_pos h2] at h
    cases h
  rw [if_neg h2] at h
  rw [Option.some.injEq] at h
  subst h
  rfl

lemma metrics_sharpe {trades : List Trade} {equity : List ℚ} {m : Metrics}
    (h : calculate_metrics trades equity = some m) :
    m.sharpe_ratio = if stdPos (pct_change equity)
      then AnnRatio.annualized (listMean (pct_change equity)) (sampleVar (pct_change equity))
      else AnnRatio.sentinelZero := by
  simp only [calculate_metrics] at h
  by_cases h1 : trades = []
  · rw [if_pos h1] at h
    cases h
  rw [if_neg h1] at h
  by_cases h2 : closedOf trades = []
  · rw [if_pos h2] at h
    cases h
  rw [if_neg h2] at h
  rw [Option.some.injEq] at h
  subst h
  rfl

lemma metrics_sortino {trades : List Trade} {equity : List ℚ} {m : Metrics}
    (h : calculate_metrics trades equity = some m) :
    m.sortino_ratio =
      if 0 < ((pct_change equity).filter (fun r => r < 0)).length ∧
          stdPos ((pct_change equity).filter (fun r => r < 0))
      then AnnRatio.annualized (listMean (pct_change equity))
        (sampleVar ((pct_change equity).filter (fun r => r < 0)))
      else AnnRatio.sentinelZero := by
  simp only [calculate_metrics] at h
  by_cases h1 : trades = []
  · rw [if_pos h1] at h
    cases h
  rw [if_neg h1] at h
  by_cases h2 : closedOf trades = []
  · rw [if_pos h2] at h
    cases h
  rw [if_neg h2] at h
  rw [Option.some.injEq] at h
  subst h
  rfl

/-- C8: whenever metrics are produced, profit_factor is the sum of the
positive pnls divided by the sum of the absolute negative pnls, with the
sentinel 0 when there are no losing trades, and is in particular always
nonnegative (and, being a rational of the model, finite: the source
guard prevents the division by zero). -/
theorem C8_profit_factor_form :
    ∀ (trades : List Trade) (equity : List ℚ) (m : Metrics),
      calculate_metrics trades equity = some m →
      (m.profit_factor = if lossesOf trades = [] then 0
        else (profitsOf trades).sum / (lossesOf trades).sum) ∧
      0 ≤ m.profit_factor := by
  intro trades equity m h
  have hp := metrics_profit_factor h
  by_cases hL : lossesOf trades = []
  · rw [hp, if_neg (by simp [hL]), if_pos hL]
    exact ⟨rfl, le_refl 0⟩
  · have hsum : 0 < (lossesOf trades).sum :=
      List.sum_pos _ (lossesOf_pos trades) hL
    rw [hp, if_pos ⟨hL, hsum⟩, if_neg hL]
    exact ⟨rfl, div_nonneg (List.sum_nonneg (profitsOf_nonneg trades)) hsum.le⟩

lemma sumSqDev_of_all_zero {xs : List ℚ} (h : ∀ r ∈ xs, r = 0) : sumSqDev xs = 0 := by
  have hmean : listMean xs = 0 := by
    rw [listMean, List.sum_eq_zero h, zero_div]
  rw [sumSqDev]
  apply List.sum_eq_zero
  intro x hx
  obtain ⟨r, hr, rfl⟩ := List.mem_map.mp hx
  rw [h r hr, hmean]
  ring

lemma stdPos_false_of_sumSqDev_zero {xs : List ℚ} (h : sumSqDev xs = 0) :
    stdPos xs = false := by
  have hv : sampleVar xs = 0 := by rw [sampleVar, h, zero_div]
  simp [stdPos, hv]

/-- C9: whenever metrics are produced, a strictly flat series of per-bar
returns makes both the Sharpe and the Sortino ratio the sentinel 0; a
return series with no negative entry makes the Sortino ratio 0; and a
negative-return subset with zero squared deviation (zero or NaN standard
deviation in the source) also makes the Sortino ratio 0.  Neither
computation divides: the guard selects the sentinel before any
denominator is formed. -/
theorem C9_sharpe_sortino_guards :
    ∀ (trades : List Trade) (equity : List ℚ) (m : Metrics),
      calculate_metrics trades equity = some m →
      ((∀ r ∈ pct_change equity, r = 0) →
        m.sharpe_ratio = AnnRatio.sentinelZero ∧
        m.sortino_ratio = AnnRatio.sentinelZero) ∧
      ((∀ r ∈ pct_change equity, 0 ≤ r) →
        m.sortino_ratio = AnnRatio.sentinelZero) ∧
      (sumSqDev ((pct_change equity).filter (fun r => r < 0)) = 0 →
        m.sortino_ratio = AnnRatio.sentinelZero) := by
  intro trades equity m h
  have hsh := metrics_sharpe h
  have hso := metrics_sortino h
  refine ⟨?_, ?_, ?_⟩
  · intro hflat
    constructor
    · rw [hsh, if_neg]
      simp [stdPos_false_of_sumSqDev_zero (sumSqDev_of_all_zero hflat)]
    · have hnil : (pct_change equity).filter (fun r => r < 0) = [] :=
        List.filter_eq_nil_iff.mpr (fun r hr => by simp [hflat r hr])
      rw [hso, if_neg]
      simp [hnil]
  · intro hnneg
    have hnil : (pct_change equity).filter (fun r => r < 0) = [] :=
      List.filter_eq_nil_iff.mpr (fun r hr => by simpa using hnneg r hr)
    rw [hso, if_neg]
    simp [hnil]
  · intro hssd
    rw [hso, if_neg]
    simp [stdPos_false_of_sumSqDev_zero hssd]

/-- Witness for C8 on a two-trade ledger with one winner (pnl 10) and
one loser (pnl -5): the profit factor is 10/5 and nonnegative. -/
theorem C8_profit_factor_form_witness :
    (({ total_trades := 2, profitable_trades := 1, losing_trades := 1,
         win_rate := 50, avg_profit := 10, avg_loss := 5, profit_factor := 2,
         sharpe_ratio := AnnRatio.sentinelZero, sortino_ratio := AnnRatio.sentinelZero,
         max_drawdown := some 0 } : Metrics).profit_factor
      = if lossesOf
            [{ entry_time := 0, entry_price := 100, quantity := 1, commission := 0,
               exit_time := some 1, exit_price := some 110, pnl := some 10,
               pnl_percent := some 10, status := TradeStatus.closed },
             { entry_time := 2, entry_price := 100, quantity := 1, commission := 0,
               exit_time := some 3, exit_price := some 95, pnl := some (-5),
               pnl_percent := some (-5), status := TradeStatus.closed }] = [] then 0
        else (profitsOf
            [{ entry_time := 0, entry_price := 100, quantity := 1, commission := 0,
               exit_time := some 1, exit_price := some 110, pnl := some 10,
               pnl_percent := some 10, status := TradeStatus.closed },
             { entry_time := 2, entry_price := 100, quantity := 1, commission := 0,
               exit_time := some 3, exit_price := some 95, pnl := some (-5),
               pnl_percent := some (-5), status := TradeStatus.closed }]).sum /
          (lossesOf
            [{ entry_time := 0, entry_price := 100, quantity := 1, commission := 0,
               exit_time := some 1, exit_price := some 110, pnl := some 10,
               pnl_percent := some 10, status := TradeStatus.closed },
             { entry_time := 2, entry_price := 100, quantity := 1, commission := 0,
               exit_time := some 3, exit_price := some 95, pnl := some (-5),
               pnl_percent := some (-5), status := TradeStatus.closed }]).sum) ∧
    (0 : ℚ) ≤ (Metrics.mk 2 1 1 50 10 5 2 AnnRatio.sentinelZero AnnRatio.sentinelZero
      (some 0)).profit_factor :=
  C8_profit_factor_form
    [{ entry_time := 0, entry_price := 100, quantity := 1, commission := 0,
       exit_time := some 1, exit_price := some 110, pnl := some 10,
       pnl_percent := some 10, status := TradeStatus.closed },
     { entry_time := 2, entry_price := 100, quantity := 1, commission := 0,
       exit_time := some 3, exit_price := some 95, pnl := some (-5),
       pnl_percent := some (-5), status := TradeStatus.closed }] [100, 100] _
    (by
      norm_num [calculate_metrics, closedOf, pnlOr0, profitsOf, lossesOf, listMean,
        sumSqDev, sampleVar, stdPos, pct_change, cummax, listMin, drawdownList]
      exact ⟨by simp, by simp⟩)

/-- Witness for C9 on a one-trade ledger over the flat equity curve
[50, 50, 50]: both ratios are the sentinel 0. -/
theorem C9_sharpe_sortino_guards_witness :
    (({ total_trades := 1, profitable_trades := 1, losing_trades := 0,
        win_rate := 100, avg_profit := 1, avg_loss := 0, profit_factor := 0,
        sharpe_ratio := AnnRatio.sentinelZero, sortino_ratio := AnnRatio.sentinelZero,
        max_drawdown := some 0 } : Metrics).sharpe_ratio = AnnRatio.sentinelZero) ∧
    (({ total_trades := 1, profitable_trades := 1, losing_trades := 0,
        win_rate := 100, avg_profit := 1, avg_loss := 0, profit_factor := 0,
        sharpe_ratio := AnnRatio.sentinelZero, sortino_ratio := AnnRatio.sentinelZero,
        max_drawdown := some 0 } : Metrics).sortino_ratio = AnnRatio.sentinelZero) :=
  (C9_sharpe_sortino_guards
    [{ entry_time := 0, entry_price := 10, quantity := 1, commission := 0,
       exit_time := some 1, exit_price := some 11, pnl := some 1,
       pnl_percent := some 10, status := TradeStatus.closed }] [50, 50, 50] _
    (by
      norm_num [calculate_metrics, closedOf, pnlOr0, profitsOf, lossesOf, listMean,
        sumSqDev, sampleVar, stdPos, pct_change, cummax, listMin, drawdownList])).1
    (by
      intro r hr
      have hp : pct_change [(50 : ℚ), 50, 50] = [0, 0] := by norm_num [pct_change]
      rw [hp] at hr
      simpa using hr)

lemma updateLast_eq {α : Type} (f : α → α) :
    ∀ (l : List α) (a : α), l.getLast? = some a → updateLast l f = l.dropLast ++ [f a]
  | [], a, h => by cases h
  | [x], a, h => by
    rw [List.getLast?_singleton, Option.some.injEq] at h
    subst h
    rfl
  | x :: y :: rest, a, h => by
    rw [List.getLast?_cons_cons] at h
    have h1 : updateLast (x :: y :: rest) f = x :: updateLast (y :: rest) f := rfl
    rw [h1, updateLast_eq f (y :: rest) a h, List.dropLast_cons₂, List.cons_append]

lemma setLast_eq {α : Type} (v : α) :
    ∀ (l : List α) (a : α), l.getLast? = some a → setLast l v = l.dropLast ++ [v]
  | [], a, h => by cases h
  | [x], a, h => rfl
  | x :: y :: rest, a, h => by
    rw [List.getLast?_cons_cons] at h
    have h1 : setLast (x :: y :: rest) v = x :: setLast (y :: rest) v := rfl
    rw [h1, setLast_eq v (y :: rest) a h, List.dropLast_cons₂, List.cons_append]

lemma getLast?_exists {α : Type} {l : List α} (h : l ≠ []) : ∃ a, l.getLast? = some a := by
  cases hl : l.getLast?
  · exact absurd (List.getLast?_eq_none_iff.mp hl) h
  · exact ⟨_, rfl⟩

lemma getLast?_setLast {α : Type} {l : List α} (h : l ≠ []) (v : α) :
    (setLast l v).getLast? = some v := by
  obtain ⟨a, ha⟩ := getLast?_exists h
  rw [setLast_eq v l a ha, List.getLast?_concat]

/-- The loop invariant of the simulation: the position is never
negative; a flat state has an all-closed ledger and records its realized
capital as the last equity entry; a long state has a nonempty ledger
whose last trade is the open one (all earlier ones closed) and a
nonempty equity curve. -/
structure EngInv (st : EngSt) : Prop where
  pos_nonneg : 0 ≤ st.position
  flat_closed : st.position = 0 → ∀ t ∈ st.trades, t.status = TradeStatus.closed
  long_trades : 0 < st.position →
    st.trades ≠ [] ∧ ∀ t ∈ st.trades.dropLast, t.status = TradeStatus.closed
  flat_equity : st.position = 0 →
    st.equity_curve = [] ∨ st.equity_curve.getLast? = some st.capital
  long_equity : 0 < st.position → st.equity_curve ≠ []

lemma calculate_position_size_pos (capital price risk : ℚ) :
    0 < calculate_position_size capital price risk :=
  lt_of_lt_of_le zero_lt_one (le_max_left _ _)

lemma stepBar_inv (c s : ℚ) (i : Nat) (bar : SigBar) (st : EngSt) (h : EngInv st) :
    EngInv (stepBar c s i bar st) := by
  obtain ⟨hpos, hfc, hlt, hfe, hle⟩ := h
  rcases hbar : bar.signal with _ | sig
  · simp only [stepBar, hbar]
    exact
      { pos_nonneg := hpos, flat_closed := hfc, long_trades := hlt,
        flat_equity := fun _ => Or.inr (List.getLast?_concat _),
        long_equity := fun _ => by simp }
  · simp only [stepBar, hbar]
    by_cases h1 : sig = 1 ∧ st.position = 0
    · rw [if_pos h1]
      have hq := calculate_position_size_pos st.capital bar.close (2 / 100)
      dsimp only
      rw [if_pos hq]
      exact
        { pos_nonneg := hq.le,
          flat_closed := fun h0 => by
            dsimp only at h0
            exact absurd (h0 ▸ hq) (lt_irrefl 0),
          long_trades := fun _ =>
            ⟨by simp, by
              rw [List.dropLast_concat]
              exact hfc h1.2⟩,
          flat_equity := fun h0 => by
            dsimp only at h0
            exact absurd (h0 ▸ hq) (lt_irrefl 0),
          long_equity := fun _ => by simp }
    · rw [if_neg h1]
      by_cases h2 : sig = -1 ∧ 0 < st.position
      · rw [if_pos h2]
        dsimp only
        rw [if_neg (lt_irrefl 0)]
        obtain ⟨hne, hdrop⟩ := hlt h2.2
        obtain ⟨last, hlast⟩ := getLast?_exists hne
        refine
          { pos_nonneg := le_refl 0,
            flat_closed := fun _ t ht => ?_,
            long_trades := fun hcon => absurd hcon (lt_irrefl 0),
            flat_equity := fun _ => Or.inr (List.getLast?_concat _),
            long_equity := fun hcon => absurd hcon (lt_irrefl 0) }
        rw [updateLast_eq _ st.trades last hlast] at ht
        rcases List.mem_append.mp ht with hd | hl
        · exact hdrop t hd
        · rw [List.mem_singleton] at hl
          subst hl
          rfl
      · rw [if_neg h2]
        by_cases hp : 0 < st.position
        · rw [if_pos hp]
          exact
            { pos_nonneg := hpos, flat_closed := hfc, long_trades := hlt,
              flat_equity := fun h0 => by
                dsimp only at h0
                exact absurd (h0 ▸ hp) (lt_irrefl 0),
              long_equity := fun _ => by simp }
        · rw [if_neg hp]
          exact
            { pos_nonneg := hpos, flat_closed := hfc, long_trades := hlt,
              flat_equity := fun _ => Or.inr (List.getLast?_concat _),
              long_equity := fun _ => by simp }

lemma simulate_inv (c s : ℚ) :
    ∀ (bars : List SigBar) (i : Nat) (st : EngSt),
      EngInv st → EngInv (simulate c s i st bars)
  | [], _, _, h => h
  | bar :: rest, i, st, h =>
    simulate_inv c s rest (i + 1) (stepBar c s i bar st) (stepBar_inv c s i bar st h)

lemma stepBar_equity_ne (c s : ℚ) (i : Nat) (bar : SigBar) (st : EngSt) :
    (stepBar c s i bar st).equity_curve ≠ [] := by
  rcases hbar : bar.signal with _ | sig
  · simp [stepBar, hbar]
  · simp only [stepBar, hbar]
    by_cases h1 : sig = 1 ∧ st.position = 0
    · rw [if_pos h1]
      dsimp only
      split_ifs <;> simp
    · rw [if_neg h1]
      by_cases h2 : sig = -1 ∧ 0 < st.position
      · rw [if_pos h2]
        dsimp only
        split_ifs <;> simp
      · rw [if_neg h2]
        split_ifs <;> simp

lemma simulate_equity_ne (c s : ℚ) :
    ∀ (bars : List SigBar) (i : Nat) (st : EngSt),
      st.equity_curve ≠ [] ∨ bars ≠ [] → (simulate c s i st bars).equity_curve ≠ []
  | [], _, st, h => by
    rcases h with h | h
    · exact h
    · exact absurd rfl h
  | bar :: rest, i, st, _ =>
    simulate_equity_ne c s rest (i + 1) (stepBar c s i bar st)
      (Or.inl (stepBar_equity_ne c s i bar st))

/-- C1: over a nonempty bar series every run ends flat: every trade in
the returned ledger is closed, the last equity entry equals
final_capital, and if a position was still open after the loop the
forced close credits the capital with the last close priced at the exit
slippage factor (1 - s) net of the commission factor (1 - c), recording
that fill as the last trade's exit price — the same treatment as a
signalled exit. -/
theorem C1_run_ends_flat :
    ∀ (init c s : ℚ) (bars : List SigBar), bars ≠ [] →
      (∀ t ∈ (runEngine init c s bars).trades, t.status = TradeStatus.closed) ∧
      (runEngine init c s bars).equity_curve.getLast?
        = some (runEngine init c s bars).final_capital ∧
      (∀ lastBar : SigBar, bars.getLast? = some lastBar →
        0 < (loopState init c s bars).position →
        (runEngine init c s bars).final_capital
          = (loopState init c s bars).capital
            + (((loopState init c s bars).position : ℚ) * (lastBar.close * (1 - s))) * (1 - c) ∧
        ((runEngine init c s bars).trades.getLast?).map Trade.exit_price
          = some (some (lastBar.close * (1 - s)))) := by
  intro init c s bars hb
  have hInv : EngInv (loopState init c s bars) := by
    apply simulate_inv
    exact
      { pos_nonneg := le_refl 0,
        flat_closed := fun _ t ht => absurd ht (List.not_mem_nil t),
        long_trades := fun hcon => absurd hcon (lt_irrefl 0),
        flat_equity := fun _ => Or.inl rfl,
        long_equity := fun hcon => absurd hcon (lt_irrefl 0) }
  have hEq : (loopState init c s bars).equity_curve ≠ [] := by
    apply simulate_equity_ne
    exact Or.inr hb
  set st := loopState init c s bars with hstdef
  have htr : (runEngine init c s bars).trades = (finalState init c s bars).trades := rfl
  have hec : (runEngine init c s bars).equity_curve
      = (finalState init c s bars).equity_curve := rfl
  have hfc2 : (runEngine init c s bars).final_capital
      = (finalState init c s bars).capital := rfl
  by_cases hp : 0 < st.position
  · obtain ⟨lb, hlb⟩ := getLast?_exists (l := bars) hb
    obtain ⟨hne, hdrop⟩ := hInv.long_trades hp
    obtain ⟨lastTr, hlastTr⟩ := getLast?_exists hne
    have hforce : finalState init c s bars =
        { st with
            capital := st.capital + ((st.position : ℚ) * (lb.close * (1 - s)) -
              (st.position : ℚ) * (lb.close * (1 - s)) * c),
            trades := updateLast st.trades (fun t =>
              { t with exit_time := some (bars.length - 1),
                       exit_price := some (lb.close * (1 - s)),
                       pnl := some ((lb.close * (1 - s) - st.entry_price) * (st.position : ℚ) -
                         (lastCommission st.trades +
                           (st.position : ℚ) * (lb.close * (1 - s)) * c)),
                       pnl_percent := some (((lb.close * (1 - s) - st.entry_price) *
                           (st.position : ℚ) -
                         (lastCommission st.trades +
                           (st.position : ℚ) * (lb.close * (1 - s)) * c)) /
                         (st.entry_price * (st.position : ℚ)) * 100),
                       status := TradeStatus.closed }),
            equity_curve := setLast st.equity_curve
              (st.capital + ((st.position : ℚ) * (lb.close * (1 - s)) -
                (st.position : ℚ) * (lb.close * (1 - s)) * c)) } := by
      show forceClose c s bars st = _
      rw [forceClose, if_pos ⟨hp, hb⟩, hlb]
    refine ⟨?_, ?_, ?_⟩
    · intro t ht
      rw [htr, hforce] at ht
      dsimp only at ht
      rw [updateLast_eq _ st.trades lastTr hlastTr] at ht
      rcases List.mem_append.mp ht with hd | hl
      · exact hdrop t hd
      · rw [List.mem_singleton] at hl
        subst hl
        rfl
    · rw [hec, hfc2, hforce]
      dsimp only
      rw [getLast?_setLast hEq]
    · intro lastBar hlastBar hp'
      rw [hlb, Option.some.injEq] at hlastBar
      subst hlastBar
      constructor
      · rw [hfc2, hforce]
        dsimp only
        ring
      · rw [htr, hforce]
        dsimp only
        rw [updateLast_eq _ st.trades lastTr hlastTr, List.getLast?_concat]
        rfl
  · have hz : st.position = 0 := le_antisymm (not_lt.mp hp) hInv.pos_nonneg
    have hforce : finalState init c s bars = st := by
      show forceClose c s bars st = _
      rw [forceClose, if_neg (fun hcon => hp hcon.1)]
    refine ⟨?_, ?_, ?_⟩
    · intro t ht
      rw [htr, hforce] at ht
      exact hInv.flat_closed hz t ht
    · rcases hInv.flat_equity hz with h | h
      · exact absurd h hEq
      · rw [hec, hfc2, hforce]
        exact h
    · intro lastBar _ hcon
      exact absurd hcon hp

/-- Witness for C1 on a one-bar series that opens a position at the only
bar and is force-closed at its close. -/
theorem C1_run_ends_flat_witness :
    (runEngine 50 0 0 [{ close := 100, signal := some 1 }]).equity_curve.getLast?
      = some (runEngine 50 0 0 [{ close := 100, signal := some 1 }]).final_capital :=
  (C1_run_ends_flat 50 0 0 [{ close := 100, signal := some 1 }] (by simp)).2.1

end QTE
